import Mathlib

/-!
Shallow embedding of the product-catalog application (`src/App.tsx`) and
proofs about the claims of its specification.

Modelling conventions:
* JavaScript numbers are modelled exactly: a `JsNum` is `nan`, `inf`, `ninf`
  or a finite exact rational (`fin q`).  Float rounding and overflow are not
  modelled; every numeric literal appearing in the source is exactly
  representable, and no claim depends on rounding.
* `Number(string)` coercion is modelled by `jsNumber`, covering the decimal
  numeral grammar (optional sign, integer/fraction digits, exponent) and the
  `Infinity` literals; other literal forms (hex, octal, binary) are outside
  the modelled domain and map to `nan`.  No claim involves them.
* Strings are Lean `String`s; `trim`/`toLowerCase` act per code point, which
  agrees with the JavaScript behaviour on every string a claim touches.
* `localStorage` together with `JSON.stringify`/`JSON.parse` is modelled at
  the JSON-value level: the store maps keys to parsed JSON values (`Json`),
  and the JSON text round-trip of the host's JSON library is taken as
  faithful (it is external to this repository).
-/

namespace ProductApp

/-- A JavaScript number: NaN, positive/negative infinity, or a finite value
modelled as an exact rational. -/
inductive JsNum where
  | nan : JsNum
  | inf : JsNum
  | ninf : JsNum
  | fin : ℚ → JsNum
deriving DecidableEq

/-- `Number.isNaN`. -/
def JsNum.isNaN : JsNum → Bool
  | .nan => true
  | _ => false

/-- `Number.isFinite`. -/
def JsNum.isFinite : JsNum → Bool
  | .fin _ => true
  | _ => false

/-- `Number.isInteger`. -/
def JsNum.isInteger : JsNum → Bool
  | .fin q => q.den == 1
  | _ => false

/-- The JavaScript comparison `a >= b` on numbers (false whenever either side
is NaN). -/
def jsGe : JsNum → JsNum → Bool
  | .nan, _ => false
  | _, .nan => false
  | .inf, _ => true
  | .ninf, .ninf => true
  | .ninf, _ => false
  | .fin _, .ninf => true
  | .fin _, .inf => false
  | .fin a, .fin b => b ≤ a

/-- The JavaScript comparison `a <= b` on numbers. -/
def jsLe (a b : JsNum) : Bool := jsGe b a

/-- Whitespace characters recognised when coercing a string to a number
(the forms occurring in practice). -/
def isJsSpace (c : Char) : Bool :=
  c == ' ' || c == '\t' || c == '\n' || c == '\r'

/-- Trim leading and trailing whitespace from a character list. -/
def trimChars (cs : List Char) : List Char :=
  ((cs.dropWhile isJsSpace).reverse.dropWhile isJsSpace).reverse

/-- JavaScript `String.prototype.trim`. -/
def jsTrim (s : String) : String := ⟨trimChars s.data⟩

/-- Numeric value of a list of decimal digit characters. -/
def digitsToNat (cs : List Char) : Nat :=
  cs.foldl (fun a c => a * 10 + (c.toNat - 48)) 0

/-- Parse an optional decimal exponent suffix (`e`/`E`, optional sign,
digits) applied to the unsigned value `n / d`; the whole remainder must be
consumed.  The value is carried as a numerator/denominator pair. -/
def parseExpSuffix (cs : List Char) (n d : Nat) : Option (Nat × Nat) :=
  match cs with
  | [] => some (n, d)
  | c :: rest =>
    if c == 'e' || c == 'E' then
      let (neg, ds) : Bool × List Char :=
        match rest with
        | '+' :: t => (false, t)
        | '-' :: t => (true, t)
        | t => (false, t)
      let ed := ds.takeWhile Char.isDigit
      if ed.isEmpty || !(ds.dropWhile Char.isDigit).isEmpty then none
      else if neg then some (n, d * 10 ^ digitsToNat ed)
      else some (n * 10 ^ digitsToNat ed, d)
    else none

/-- Parse an unsigned decimal numeral (integer part, optional fraction,
optional exponent) into a numerator/denominator pair; `none` means NaN. -/
def parseDecimal (cs : List Char) : Option (Nat × Nat) :=
  let ip := cs.takeWhile Char.isDigit
  let r1 := cs.dropWhile Char.isDigit
  match r1 with
  | '.' :: r2 =>
    let fp := r2.takeWhile Char.isDigit
    let r3 := r2.dropWhile Char.isDigit
    if ip.isEmpty && fp.isEmpty then none
    else parseExpSuffix r3 (digitsToNat (ip ++ fp)) (10 ^ fp.length)
  | _ =>
    if ip.isEmpty then none else parseExpSuffix r1 (digitsToNat ip) 1

/-- Parse the body of a numeric string after an explicit or implicit sign. -/
def parseSignedBody (cs : List Char) (neg : Bool) : JsNum :=
  if cs = "Infinity".data then (if neg then .ninf else .inf)
  else
    match parseDecimal cs with
    | some (n, d) => .fin (if neg then mkRat (-(n : Int)) d else mkRat n d)
    | none => .nan

/-- JavaScript `Number(string)`: trim, empty means 0, optional sign, then an
`Infinity` literal or a decimal numeral; anything else is NaN. -/
def jsNumber (s : String) : JsNum :=
  match trimChars s.data with
  | [] => .fin 0
  | '+' :: rest => parseSignedBody rest false
  | '-' :: rest => parseSignedBody rest true
  | cs => parseSignedBody cs false

/-- A catalog product (`type Product`).  Identifiers are finite JavaScript
numbers (exact rationals here); `gia` (price) and `soLuong` (quantity) are
arbitrary JavaScript numbers; `danhMuc` (category) is kept as the string the
running code carries. -/
structure Product where
  id : ℚ
  ten : String
  danhMuc : String
  gia : JsNum
  soLuong : JsNum
  moTa : String
deriving DecidableEq

/-- The five fixed category labels (`CATEGORIES`). -/
def CATEGORIES : List String := ["Điện tử", "Quần áo", "Đồ ăn", "Sách", "Khác"]

/-- `PAGE_SIZE`. -/
def PAGE_SIZE : Nat := 6

/-- The fixed 11-item seed catalog (`initialProducts`). -/
def initialProducts : List Product := [
  ⟨1, "iPhone 15 Pro", "Điện tử", .fin 25000000, .fin 10, "Flagship Apple, chip A17 Pro."⟩,
  ⟨2, "Áo Thun Nam", "Quần áo", .fin 150000, .fin 50, "Cotton 100%, form regular fit."⟩,
  ⟨3, "Bánh Mì Bơ Tỏi", "Đồ ăn", .fin 35000, .fin 120, "Giòn thơm, làm mới mỗi ngày."⟩,
  ⟨4, "Sách Dạy Nấu Ăn", "Sách", .fin 99000, .fin 40, "Tuyển tập công thức dễ làm."⟩,
  ⟨5, "Tai Nghe Bluetooth", "Điện tử", .fin 790000, .fin 35, "Bluetooth 5.3, chống ồn chủ động."⟩,
  ⟨6, "Quần Jean Slim", "Quần áo", .fin 399000, .fin 28, "Denim co giãn, xanh đậm."⟩,
  ⟨7, "Cơm Gà Xối Mỡ", "Đồ ăn", .fin 45000, .fin 60, "Suất ăn nóng, gà giòn rụm."⟩,
  ⟨8, "Sách Kinh Tế Học", "Sách", .fin 159000, .fin 22, "Nhập môn kinh tế (bản mới)."⟩,
  ⟨9, "Bình Giữ Nhiệt", "Khác", .fin 199000, .fin 45, "Giữ nóng/lạnh 6-8h, 500ml."⟩,
  ⟨10, "Chuột Không Dây", "Điện tử", .fin 259000, .fin 70, "2.4G + BT, DPI 800-1600-2400."⟩,
  ⟨11, "Áo Khoác Hoodie", "Quần áo", .fin 499000, .fin 15, "Nỉ dày, có mũ, unisex."⟩]

/-- The reducer's state (`ProductState`): the product list and the
next-identifier counter. -/
structure ProductState where
  products : List Product
  nextId : ℚ
deriving DecidableEq

/-- The payload of an `add` action: a product draft without an identifier
(`Omit<Product, "id">`). -/
structure Draft where
  ten : String
  danhMuc : String
  gia : JsNum
  soLuong : JsNum
  moTa : String
deriving DecidableEq

/-- `Math.max` on two finite JavaScript numbers. -/
def jsMax (a b : ℚ) : ℚ := if a ≤ b then b else a

/-- The `hydrate` branch of the reducer: replace the list; the new counter is
`Math.max` folded over the identifiers starting at 0, plus one. -/
def hydrateOp (payload : List Product) : ProductState :=
  ⟨payload, payload.foldl (fun m p => jsMax m p.id) 0 + 1⟩

/-- The product built by the `add` branch: the draft's fields with
`id := state.nextId`. -/
def mkNewProduct (s : ProductState) (d : Draft) : Product :=
  ⟨s.nextId, d.ten, d.danhMuc, d.gia, d.soLuong, d.moTa⟩

/-- The `add` branch of the reducer: prepend the new product and increment
the counter. -/
def addOp (s : ProductState) (d : Draft) : ProductState :=
  ⟨mkNewProduct s d :: s.products, s.nextId + 1⟩

/-- The `update` branch of the reducer: replace each element whose identifier
matches the payload's identifier; the counter is unchanged. -/
def updateOp (s : ProductState) (pl : Product) : ProductState :=
  ⟨s.products.map (fun p => if p.id = pl.id then pl else p), s.nextId⟩

/-- The `delete` branch of the reducer: keep the elements whose identifier
differs; the counter is unchanged. -/
def removeOp (s : ProductState) (i : ℚ) : ProductState :=
  ⟨s.products.filter (fun p => decide (p.id ≠ i)), s.nextId⟩

/-- A parsed JSON value.  The blob store is modelled as holding parsed JSON
values: the textual round-trip performed by the host's `JSON.stringify` /
`JSON.parse` pair is external to this repository and taken as faithful. -/
inductive Json where
  | null : Json
  | jbool : Bool → Json
  | num : ℚ → Json
  | str : String → Json
  | arr : List Json → Json
  | obj : List (String × Json) → Json

/-- The fixed storage key (`LS_KEY`). -/
def LS_KEY : String := "product_app_state_v1"

/-- The blob store (`localStorage`), keyed by strings. -/
def BlobStore : Type := String → Option Json

/-- `JSON.stringify` on a number: NaN and the infinities serialize as
`null`. -/
def encodeNum (n : JsNum) : Json :=
  match n with
  | .fin q => .num q
  | _ => .null

/-- The JSON shape `JSON.stringify` produces for one product. -/
def encodeProduct (p : Product) : Json :=
  .obj [("id", .num p.id), ("ten", .str p.ten), ("danhMuc", .str p.danhMuc),
        ("gia", encodeNum p.gia), ("soLuong", encodeNum p.soLuong),
        ("moTa", .str p.moTa)]

/-- The JSON shape `JSON.stringify` produces for the product list. -/
def encodeProducts (l : List Product) : Json := .arr (l.map encodeProduct)

/-- Read a JSON number. -/
def Json.asNum : Json → Option ℚ
  | .num q => some q
  | _ => none

/-- Read a JSON string. -/
def Json.asStr : Json → Option String
  | .str s => some s
  | _ => none

/-- Reading one product back out of a stored JSON object.  The source casts
the parsed value without shape validation (`as Product[]`); the model covers
the payloads that fit the `Product` shape and maps the rest to `none`
(spec section 4.1 documents wrong-shape payloads as absent data). -/
def decodeProduct : Json → Option Product
  | .obj fs => do
    let i ← (fs.lookup "id").bind Json.asNum
    let t ← (fs.lookup "ten").bind Json.asStr
    let dm ← (fs.lookup "danhMuc").bind Json.asStr
    let g ← (fs.lookup "gia").bind Json.asNum
    let sl ← (fs.lookup "soLuong").bind Json.asNum
    let mt ← (fs.lookup "moTa").bind Json.asStr
    pure ⟨i, t, dm, .fin g, .fin sl, mt⟩
  | _ => none

/-- Decode each element of a stored JSON array. -/
def decodeProductList : List Json → Option (List Product)
  | [] => some []
  | j :: js => do
    let p ← decodeProduct j
    let ps ← decodeProductList js
    pure (p :: ps)

/-- Decode a stored JSON value as a product list. -/
def decodeProducts : Json → Option (List Product)
  | .arr xs => decodeProductList xs
  | _ => none

/-- `persist`: serialize the full list under the fixed key.  The silent
`try/catch` around a failing write is environmental (quota, disabled
storage) and outside the model; the model records the successful write. -/
def persist (st : BlobStore) (products : List Product) : BlobStore :=
  fun k => if k = LS_KEY then some (encodeProducts products) else st k

/-- `loadFromStorage`: read the fixed key; absent or wrong-shape data gives
`none`. -/
def loadFromStorage (st : BlobStore) : Option (List Product) :=
  match st LS_KEY with
  | none => none
  | some j => decodeProducts j

/-- The hydration choice made by `ProductProvider`: the persisted list when
loading succeeds and the list is non-empty, otherwise the seed catalog. -/
def chooseHydration (st : BlobStore) : List Product :=
  match loadFromStorage st with
  | some l => if l.isEmpty then initialProducts else l
  | none => initialProducts

/-- The filter specification read from the URL query (`FilterState`); every
field is a raw string, absent parameters reading as `""`. -/
structure FilterState where
  q : String
  danhMuc : String
  min : String
  max : String
deriving DecidableEq

/-- Does the character-list `need` occur contiguously in `hay`, starting at
the current position? -/
def startsWithChars : List Char → List Char → Bool
  | _, [] => true
  | [], _ :: _ => false
  | a :: as, b :: bs => a == b && startsWithChars as bs

/-- JavaScript `String.prototype.includes`: contiguous substring test. -/
def containsSub : List Char → List Char → Bool
  | [], need => need.isEmpty
  | hay@(_ :: t), need => startsWithChars hay need || containsSub t need

/-- Lower-casing as used by the name search (`toLowerCase`).  Modelled with
the code-point map of `Char.toLower`; no claim depends on the case folding
of any particular character. -/
def jsToLower (s : String) : String := ⟨s.data.map Char.toLower⟩

/-- Step 1 of the list projection: if the query text is non-blank, keep the
products whose lower-cased name contains the lower-cased query. -/
def applyTextFilter (f : FilterState) (l : List Product) : List Product :=
  if jsTrim f.q = "" then l
  else l.filter (fun p => containsSub (jsToLower p.ten).data (jsToLower f.q).data)

/-- Step 2 of the list projection: if a category is selected, keep exact
category matches. -/
def applyCatFilter (f : FilterState) (l : List Product) : List Product :=
  if f.danhMuc = "" then l
  else l.filter (fun p => p.danhMuc == f.danhMuc)

/-- `const min = f.min ? Number(f.min) : undefined`. -/
def parsedMin (f : FilterState) : Option JsNum :=
  if f.min = "" then none else some (jsNumber f.min)

/-- `const max = f.max ? Number(f.max) : undefined`. -/
def parsedMax (f : FilterState) : Option JsNum :=
  if f.max = "" then none else some (jsNumber f.max)

/-- Step 3 of the list projection: when the minimum bound is defined and not
NaN, keep the products with `gia >= min`. -/
def applyMinFilter (f : FilterState) (l : List Product) : List Product :=
  match parsedMin f with
  | some n => if n.isNaN then l else l.filter (fun p => jsGe p.gia n)
  | none => l

/-- Step 4 of the list projection: when the maximum bound is defined and not
NaN, keep the products with `gia <= max`. -/
def applyMaxFilter (f : FilterState) (l : List Product) : List Product :=
  match parsedMax f with
  | some n => if n.isNaN then l else l.filter (fun p => jsLe p.gia n)
  | none => l

/-- The list projection of `ProductListPage`: text, category, minimum and
maximum filters applied in the source's order. -/
def filteredList (f : FilterState) (products : List Product) : List Product :=
  applyMaxFilter f (applyMinFilter f (applyCatFilter f (applyTextFilter f products)))

/-- The membership predicate of one projection step, as a Boolean on a
product. -/
def stepKeep (f : FilterState) : Fin 4 → Product → Bool
  | ⟨0, _⟩ => fun p =>
      if jsTrim f.q = "" then true
      else containsSub (jsToLower p.ten).data (jsToLower f.q).data
  | ⟨1, _⟩ => fun p => if f.danhMuc = "" then true else p.danhMuc == f.danhMuc
  | ⟨2, _⟩ => fun p =>
      match parsedMin f with
      | some n => if n.isNaN then true else jsGe p.gia n
      | none => true
  | ⟨3, _⟩ => fun p =>
      match parsedMax f with
      | some n => if n.isNaN then true else jsLe p.gia n
      | none => true

/-- One projection step selected by index (text, category, min, max). -/
def applyStep (f : FilterState) (i : Fin 4) (l : List Product) : List Product :=
  match i with
  | ⟨0, _⟩ => applyTextFilter f l
  | ⟨1, _⟩ => applyCatFilter f l
  | ⟨2, _⟩ => applyMinFilter f l
  | ⟨3, _⟩ => applyMaxFilter f l

/-- The projection steps applied in a caller-chosen order. -/
def applySteps (f : FilterState) (order : List (Fin 4)) (l : List Product) : List Product :=
  order.foldl (fun acc i => applyStep f i acc) l

/-- `totalPages` in the pagination component: at least one page. -/
def totalPages (total : Nat) : Nat := Nat.max 1 ((total + PAGE_SIZE - 1) / PAGE_SIZE)

/-- The slice shown for a page (`filtered.slice(start, start + PAGE_SIZE)`,
with `start = (page - 1) * PAGE_SIZE`); pages count from 1. -/
def pageItems (page : Nat) (l : List Product) : List Product :=
  (l.drop ((page - 1) * PAGE_SIZE)).take PAGE_SIZE

/-- The page requested by the Previous button (`Math.max(1, page - 1)`). -/
def prevPageTarget (page : Nat) : Nat := Nat.max 1 (page - 1)

/-- The page requested by the Next button
(`Math.min(totalPages, page + 1)`). -/
def nextPageTarget (tp page : Nat) : Nat := Nat.min tp (page + 1)

/-- The form draft (`FormValues`): every field as raw text. -/
structure FormValues where
  ten : String
  danhMuc : String
  gia : String
  soLuong : String
  moTa : String
deriving DecidableEq

/-- The field-level validation errors produced by `validate`; `none` means
the field passed. -/
structure FormErrors where
  ten : Option String
  danhMuc : Option String
  gia : Option String
  soLuong : Option String
  moTa : Option String
deriving DecidableEq

/-- `validate`: the five field rules exactly as the source checks them. -/
def validate (v : FormValues) : FormErrors :=
  let tenErr :=
    if jsTrim v.ten = "" then some "Tên sản phẩm là bắt buộc"
    else if (jsTrim v.ten).length < 3 then some "Tên tối thiểu 3 ký tự"
    else none
  let danhMucErr := if v.danhMuc = "" then some "Vui lòng chọn danh mục" else none
  let gia := jsNumber v.gia
  let giaErr :=
    if v.gia = "" then some "Giá là bắt buộc"
    else if gia.isNaN || jsLe gia (.fin 0) then some "Giá phải là số dương"
    else none
  let soLuong := jsNumber v.soLuong
  let soLuongErr :=
    if v.soLuong = "" then some "Số lượng là bắt buộc"
    else if !soLuong.isInteger || jsLe soLuong (.fin 0) then some "Số lượng phải là số nguyên dương"
    else none
  let moTaErr := if jsTrim v.moTa = "" then some "Mô tả là bắt buộc" else none
  ⟨tenErr, danhMucErr, giaErr, soLuongErr, moTaErr⟩

/-- `Object.keys(errs).length === 0`: no field carries an error. -/
def FormErrors.isEmpty (e : FormErrors) : Bool :=
  e.ten.isNone && e.danhMuc.isNone && e.gia.isNone && e.soLuong.isNone && e.moTa.isNone

/-- The touched-field set of the form. -/
structure Touched where
  ten : Bool
  danhMuc : Bool
  gia : Bool
  soLuong : Bool
  moTa : Bool
deriving DecidableEq

/-- The touched set written on a failed submit: every field marked. -/
def allTouched : Touched := ⟨true, true, true, true, true⟩

/-- The payload the form emits in add mode: trimmed text fields, coerced
numeric fields, no identifier. -/
def addPayload (v : FormValues) : Draft :=
  ⟨jsTrim v.ten, v.danhMuc, jsNumber v.gia, jsNumber v.soLuong, jsTrim v.moTa⟩

/-- The `submit` handler in add mode: on any validation error mark all
fields touched and emit nothing, otherwise emit the payload. -/
def submitAdd (t : Touched) (v : FormValues) : Touched × Option Draft :=
  if (validate v).isEmpty then (t, some (addPayload v)) else (allTouched, none)

/-- The `submit` handler in edit mode: same gate, the payload keeping the
original identifier. -/
def submitEdit (t : Touched) (initial : Product) (v : FormValues) : Touched × Option Product :=
  if (validate v).isEmpty then
    (t, some ⟨initial.id, jsTrim v.ten, v.danhMuc, jsNumber v.gia, jsNumber v.soLuong, jsTrim v.moTa⟩)
  else (allTouched, none)

/-- A sequence of `add` dispatches folded over a starting state. -/
def addAll (s : ProductState) (ds : List Draft) : ProductState := ds.foldl addOp s

/-- The identifiers handed out by a sequence of `add` dispatches, in
dispatch order: each `add` assigns the current `nextId`. -/
def assignedIds : ProductState → List Draft → List ℚ
  | _, [] => []
  | s, d :: ds => s.nextId :: assignedIds (addOp s d) ds

/-- The store invariant of the specification: every identifier in the list
is strictly below the counter, and the identifiers are pairwise distinct. -/
def StoreInv (s : ProductState) : Prop :=
  (∀ p ∈ s.products, p.id < s.nextId) ∧ s.products.Pairwise (fun a b => a.id ≠ b.id)

/-- Concrete fixture used by witnesses and counterexamples. -/
def sampleProduct : Product := ⟨1, "a", "Khác", .fin 5, .fin 1, "d"⟩

/-- A second fixture with a distinct identifier. -/
def sampleProduct2 : Product := ⟨2, "b", "Sách", .fin 7, .fin 2, "e"⟩

/-- A fixture whose identifier is negative. -/
def negIdProduct : Product := ⟨-1, "a", "Khác", .fin 1, .fin 1, "d"⟩

/-- A concrete draft fixture. -/
def sampleDraft : Draft := ⟨"x", "Khác", .fin 3, .fin 1, "y"⟩

/-- A second concrete draft fixture. -/
def sampleDraft2 : Draft := ⟨"z", "Sách", .fin 4, .fin 2, "w"⟩

/-- An empty blob store. -/
def emptyStore : BlobStore := fun _ => none

/-- A concrete valid form draft fixture. -/
def sampleFormOk : FormValues := ⟨"ABC", "Sách", "50000", "10", "ok"⟩

/-- A concrete form draft whose name has two characters. -/
def sampleFormAB : FormValues := ⟨"AB", "Sách", "100", "2", "ok"⟩

/-- The all-false touched set. -/
def noneTouched : Touched := ⟨false, false, false, false, false⟩

end ProductApp

namespace ProductApp

theorem jsMax_le {a b c : ℚ} (ha : a ≤ c) (hb : b ≤ c) : jsMax a b ≤ c := by
  unfold jsMax; split <;> assumption

theorem le_jsMax_left (a b : ℚ) : a ≤ jsMax a b := by
  unfold jsMax; split <;> [assumption; exact le_refl a]

theorem le_jsMax_right (a b : ℚ) : b ≤ jsMax a b := by
  unfold jsMax; split <;> [exact le_refl b; linarith [lt_of_not_le (by assumption : ¬ a ≤ b)]]

theorem foldl_jsMax_init_le (l : List Product) (a : ℚ) :
    a ≤ l.foldl (fun m p => jsMax m p.id) a := by
  induction l generalizing a with
  | nil => exact le_refl a
  | cons q l ih => exact le_trans (le_jsMax_left a q.id) (ih (jsMax a q.id))

theorem mem_le_foldl_jsMax {l : List Product} {p : Product} (hp : p ∈ l) (a : ℚ) :
    p.id ≤ l.foldl (fun m q => jsMax m q.id) a := by
  induction l generalizing a with
  | nil => cases hp
  | cons q l ih =>
    rcases List.mem_cons.mp hp with h | h
    · subst h
      exact le_trans (le_jsMax_right a p.id) (foldl_jsMax_init_le l (jsMax a p.id))
    · exact ih h (jsMax a q.id)

theorem foldl_jsMax_le {l : List Product} {a b : ℚ} (ha : a ≤ b)
    (hl : ∀ q ∈ l, q.id ≤ b) : l.foldl (fun m p => jsMax m p.id) a ≤ b := by
  induction l generalizing a with
  | nil => exact ha
  | cons q l ih =>
    exact ih (jsMax_le ha (hl q (List.mem_cons_self q l)))
      (fun r hr => hl r (List.mem_cons_of_mem q hr))

theorem applyStep_eq_filter (f : FilterState) (i : Fin 4) (l : List Product) :
    applyStep f i l = l.filter (stepKeep f i) := by
  match i with
  | ⟨0, _⟩ =>
    show applyTextFilter f l = _
    unfold applyTextFilter stepKeep
    split
    · rw [List.filter_true]
    · rfl
  | ⟨1, _⟩ =>
    show applyCatFilter f l = _
    unfold applyCatFilter stepKeep
    split
    · rw [List.filter_true]
    · rfl
  | ⟨2, _⟩ =>
    show applyMinFilter f l = _
    unfold applyMinFilter stepKeep
    rcases parsedMin f with _ | n
    · rw [List.filter_true]
    · dsimp only
      split
      · rw [List.filter_true]
      · rfl
  | ⟨3, _⟩ =>
    show applyMaxFilter f l = _
    unfold applyMaxFilter stepKeep
    rcases parsedMax f with _ | n
    · rw [List.filter_true]
    · dsimp only
      split
      · rw [List.filter_true]
      · rfl

theorem applySteps_eq_filter_all (f : FilterState) (order : List (Fin 4)) (l : List Product) :
    applySteps f order l = l.filter (fun p => order.all (fun i => stepKeep f i p)) := by
  induction order generalizing l with
  | nil => simp [applySteps]
  | cons i rest ih =>
    show applySteps f rest (applyStep f i l) = _
    rw [ih, applyStep_eq_filter, List.filter_filter]
    apply List.filter_congr
    intro p _
    simp [List.all_cons, Bool.and_comm]

theorem perm_all_eq {α : Type} {l1 l2 : List α} (h : l1.Perm l2) (g : α → Bool) :
    l1.all g = l2.all g := by
  rw [Bool.eq_iff_iff]
  simp only [List.all_eq_true]
  exact ⟨fun H x hx => H x (h.mem_iff.mpr hx), fun H x hx => H x (h.mem_iff.mp hx)⟩

theorem filteredList_eq_applySteps (f : FilterState) (l : List Product) :
    filteredList f l = applySteps f [0, 1, 2, 3] l := rfl

/-- C1 (amended): the minimum-price filter is applied exactly when the min
text is non-empty and does not parse to NaN (likewise for the max); for a
finite parse the comparison is the inclusive `>=` (resp. `<=`) bound, an
empty or NaN-parsing bound keeps all products, and the projection composes
the four steps in order.  (Texts parsing to an infinity also apply the
filter; see the counterexample.) -/
theorem price_bounds_semantics (f : FilterState) (l : List Product) :
    (f.min = "" ∨ jsNumber f.min = .nan → applyMinFilter f l = l) ∧
    (f.min ≠ "" → (jsNumber f.min).isNaN = false →
      applyMinFilter f l = l.filter (fun p => jsGe p.gia (jsNumber f.min))) ∧
    (f.max = "" ∨ jsNumber f.max = .nan → applyMaxFilter f l = l) ∧
    (f.max ≠ "" → (jsNumber f.max).isNaN = false →
      applyMaxFilter f l = l.filter (fun p => jsLe p.gia (jsNumber f.max))) ∧
    (∀ q : ℚ, jsGe (.fin q) (.fin q) = true ∧ jsLe (.fin q) (.fin q) = true) ∧
    filteredList f l = applyMaxFilter f (applyMinFilter f (applyCatFilter f (applyTextFilter f l))) := by
  refine ⟨?_, ?_, ?_, ?_, ?_, rfl⟩
  · rintro (h | h)
    · simp [applyMinFilter, parsedMin, h]
    · by_cases hm : f.min = ""
      · simp [applyMinFilter, parsedMin, hm]
      · simp [applyMinFilter, parsedMin, hm, h, JsNum.isNaN]
  · intro hne hnan
    unfold applyMinFilter parsedMin
    simp [hne, hnan]
  · rintro (h | h)
    · simp [applyMaxFilter, parsedMax, h]
    · by_cases hm : f.max = ""
      · simp [applyMaxFilter, parsedMax, hm]
      · simp [applyMaxFilter, parsedMax, hm, h, JsNum.isNaN]
  · intro hne hnan
    unfold applyMaxFilter parsedMax
    simp [hne, hnan]
  · intro q
    constructor <;> simp [jsGe, jsLe]

/-- C1 witness: with min text `"100"` (a finite parse) the inclusive bound
keeps the product priced exactly 100 and an unparsable max keeps it too. -/
theorem price_bounds_semantics_witness :
    applyMinFilter ⟨"", "", "100", "abc"⟩ [⟨1, "a", "Khác", .fin 100, .fin 1, "d"⟩] =
      [⟨1, "a", "Khác", .fin 100, .fin 1, "d"⟩].filter
        (fun p => jsGe p.gia (jsNumber "100")) ∧
    applyMaxFilter ⟨"", "", "100", "abc"⟩ [⟨1, "a", "Khác", .fin 100, .fin 1, "d"⟩] =
      [⟨1, "a", "Khác", .fin 100, .fin 1, "d"⟩] :=
  ⟨(price_bounds_semantics ⟨"", "", "100", "abc"⟩ _).2.1 (by decide) (by decide),
   (price_bounds_semantics ⟨"", "", "100", "abc"⟩ _).2.2.1 (Or.inr (by decide))⟩

/-- C1 counterexample: the min text `"Infinity"` does not parse to a finite
number, yet the projection applies the bound and drops a product that an
unset bound would keep — the claim's "applied only when the min text parses
to a finite number" fails. -/
theorem price_min_infinity_counterexample :
    (jsNumber "Infinity").isFinite = false ∧
    filteredList ⟨"", "", "", ""⟩ [sampleProduct] = [sampleProduct] ∧
    filteredList ⟨"", "", "Infinity", ""⟩ [sampleProduct] = [] := by decide

/-- C6: applying the four projection steps in any order yields the same
result list as the source's fixed order. -/
theorem filter_order_irrelevant (f : FilterState) (l : List Product)
    (order : List (Fin 4)) (h : order.Perm [0, 1, 2, 3]) :
    applySteps f order l = filteredList f l := by
  rw [filteredList_eq_applySteps, applySteps_eq_filter_all, applySteps_eq_filter_all]
  exact List.filter_congr (fun p _ => perm_all_eq h _)

/-- C6 witness: the reversed order (max, min, category, text) agrees with
the source's order on a concrete list and filter. -/
theorem filter_order_irrelevant_witness :
    applySteps ⟨"a", "Khác", "2", "6"⟩ [3, 2, 1, 0] [sampleProduct, sampleProduct2] =
      filteredList ⟨"a", "Khác", "2", "6"⟩ [sampleProduct, sampleProduct2] :=
  filter_order_irrelevant ⟨"a", "Khác", "2", "6"⟩ [sampleProduct, sampleProduct2]
    [3, 2, 1, 0] (by decide)

theorem addAll_append (s : ProductState) (ds1 ds2 : List Draft) :
    addAll s (ds1 ++ ds2) = addAll (addAll s ds1) ds2 :=
  List.foldl_append ..

theorem mem_assignedIds_le {x : ℚ} {s : ProductState} {ds : List Draft}
    (hx : x ∈ assignedIds s ds) : s.nextId ≤ x := by
  induction ds generalizing s with
  | nil => cases hx
  | cons d ds ih =>
    rcases List.mem_cons.mp hx with h | h
    · exact le_of_eq h.symm
    · have h1 : s.nextId + 1 ≤ x := ih (s := addOp s d) h
      linarith

theorem assignedIds_pairwise (s : ProductState) (ds : List Draft) :
    List.Pairwise (· < ·) (assignedIds s ds) := by
  induction ds generalizing s with
  | nil => exact List.Pairwise.nil
  | cons d ds ih =>
    refine List.pairwise_cons.mpr ⟨fun x hx => ?_, ih (addOp s d)⟩
    have h1 : s.nextId + 1 ≤ x := mem_assignedIds_le hx
    linarith

theorem assignedIds_append (s : ProductState) (ds1 ds2 : List Draft) :
    assignedIds s (ds1 ++ ds2) = assignedIds s ds1 ++ assignedIds (addAll s ds1) ds2 := by
  induction ds1 generalizing s with
  | nil => rfl
  | cons d ds1 ih => simpa [assignedIds] using ih (addOp s d)

theorem assignedIds_length (s : ProductState) (ds : List Draft) :
    (assignedIds s ds).length = ds.length := by
  induction ds generalizing s with
  | nil => rfl
  | cons d ds ih => simpa [assignedIds] using ih (addOp s d)

/-- C2: for every starting state and sequence of `add` dispatches, the
assigned identifiers are strictly increasing (hence unique), and after each
`add` the front of the list is the product just added — the draft's fields
under the identifier assigned at that step. -/
theorem add_sequence_ids_and_front (s : ProductState) (ds : List Draft) :
    List.Pairwise (· < ·) (assignedIds s ds) ∧
    ∀ ds1 d ds2, ds = ds1 ++ d :: ds2 →
      (addAll s (ds1 ++ [d])).products.head? = some (mkNewProduct (addAll s ds1) d) ∧
      (assignedIds s ds)[ds1.length]? = some (mkNewProduct (addAll s ds1) d).id := by
  refine ⟨assignedIds_pairwise s ds, ?_⟩
  rintro ds1 d ds2 rfl
  constructor
  · rw [addAll_append]
    rfl
  · rw [assignedIds_append,
      List.getElem?_append_right (by rw [assignedIds_length])]
    rw [assignedIds_length, Nat.sub_self]
    simp [assignedIds, mkNewProduct]

/-- C2 witness: two adds on a concrete starting state give increasing ids
and the second add's product at the front. -/
theorem add_sequence_ids_and_front_witness :
    List.Pairwise (· < ·) (assignedIds ⟨[], 1⟩ [sampleDraft, sampleDraft2]) ∧
    (addAll ⟨[], 1⟩ ([sampleDraft] ++ [sampleDraft2])).products.head? =
      some (mkNewProduct (addAll ⟨[], 1⟩ [sampleDraft]) sampleDraft2) := by
  have h := add_sequence_ids_and_front ⟨[], 1⟩ [sampleDraft, sampleDraft2]
  exact ⟨h.1, (h.2 [sampleDraft] sampleDraft2 [] rfl).1⟩

theorem update_field_id (pl p : Product) : (if p.id = pl.id then pl else p).id = p.id := by
  split
  · rename_i h
    exact h.symm
  · rfl

/-- C3 (amended): the invariant — every identifier strictly below the
counter, identifiers pairwise distinct — holds after hydrating any payload
whose identifiers are pairwise distinct, is preserved by `add`, `update`
and `delete`, and the counter's value is never an identifier already in the
list (so an identifier handed out once is never handed out again). -/
theorem store_invariant_preservation (payload : List Product) (s : ProductState)
    (d : Draft) (pl : Product) (i : ℚ) :
    (payload.Pairwise (fun a b => a.id ≠ b.id) → StoreInv (hydrateOp payload)) ∧
    (StoreInv s → StoreInv (addOp s d)) ∧
    (StoreInv s → StoreInv (updateOp s pl)) ∧
    (StoreInv s → StoreInv (removeOp s i)) ∧
    (StoreInv s → ∀ p ∈ s.products, p.id ≠ s.nextId) := by
  refine ⟨fun hp => ⟨fun p hpm => ?_, hp⟩, fun h => ⟨?_, ?_⟩, fun h => ⟨?_, ?_⟩,
    fun h => ⟨fun p hp => h.1 p (List.mem_of_mem_filter hp), h.2.sublist (List.filter_sublist _)⟩,
    fun h p hp => ne_of_lt (h.1 p hp)⟩
  · exact lt_of_le_of_lt (mem_le_foldl_jsMax hpm 0) (lt_add_one _)
  · intro p hp
    rcases List.mem_cons.mp hp with rfl | hmem
    · exact lt_add_one _
    · exact lt_trans (h.1 p hmem) (lt_add_one _)
  · refine List.pairwise_cons.mpr ⟨fun b hb => ?_, h.2⟩
    exact (ne_of_lt (h.1 b hb)).symm
  · intro x hx
    rcases List.mem_map.mp hx with ⟨p, hp, rfl⟩
    rw [update_field_id]
    exact h.1 p hp
  · refine List.pairwise_map.mpr (h.2.imp ?_)
    intro a b hab
    rw [update_field_id, update_field_id]
    exact hab

/-- C3 witness: the invariant holds after hydrating a one-element payload
and is kept by an `add` on a concrete valid state. -/
theorem store_invariant_preservation_witness :
    StoreInv (hydrateOp [sampleProduct]) ∧ StoreInv (addOp ⟨[sampleProduct], 2⟩ sampleDraft) := by
  have h := store_invariant_preservation [sampleProduct] ⟨[sampleProduct], 2⟩ sampleDraft sampleProduct 1
  refine ⟨h.1 (List.pairwise_singleton _ _), h.2.1 ⟨?_, List.pairwise_singleton _ _⟩⟩
  intro p hp
  rw [List.mem_singleton] at hp
  subst hp
  show (1 : ℚ) < 2
  norm_num

/-- C3 counterexample: hydrating a payload that repeats an identifier
violates the distinctness half of the invariant, so the claim's
unconditional "holds after hydrate" fails. -/
theorem hydrate_duplicate_ids_counterexample :
    ¬ StoreInv (hydrateOp [sampleProduct, sampleProduct]) := by
  intro h
  have h2 : List.Pairwise (fun a b : Product => a.id ≠ b.id) [sampleProduct, sampleProduct] := h.2
  exact (List.pairwise_cons.mp h2).1 sampleProduct (by simp) rfl

theorem isFinite_iff {n : JsNum} : n.isFinite = true ↔ ∃ q, n = .fin q := by
  cases n <;> simp [JsNum.isFinite]

theorem decodeProduct_encodeProduct (p : Product) (hg : p.gia.isFinite = true)
    (hs : p.soLuong.isFinite = true) : decodeProduct (encodeProduct p) = some p := by
  obtain ⟨i, t, dm, g0, s0, mt⟩ := p
  rcases isFinite_iff.mp hg with ⟨g, hg'⟩
  rcases isFinite_iff.mp hs with ⟨s', hs'⟩
  simp only at hg' hs'
  subst hg' hs'
  simp [encodeProduct, decodeProduct, encodeNum, Json.asNum, Json.asStr, List.lookup]

theorem decodeProductList_encode (l : List Product)
    (h : ∀ p ∈ l, p.gia.isFinite = true ∧ p.soLuong.isFinite = true) :
    decodeProductList (l.map encodeProduct) = some l := by
  induction l with
  | nil => rfl
  | cons p l ih =>
    have hp := h p (List.mem_cons_self p l)
    simp only [List.map_cons, decodeProductList]
    rw [decodeProduct_encodeProduct p hp.1 hp.2,
      ih (fun q hq => h q (List.mem_cons_of_mem p hq))]
    rfl

/-- C4: saving a list of valid products (finite prices and quantities) and
loading from the same blob store returns the saved list, field for field. -/
theorem save_load_roundtrip (st : BlobStore) (l : List Product) (h1 : l ≠ [])
    (h2 : ∀ p ∈ l, p.gia.isFinite = true ∧ p.soLuong.isFinite = true) :
    loadFromStorage (persist st l) = some l := by
  show (match (if LS_KEY = LS_KEY then some (encodeProducts l) else st LS_KEY) with
    | none => none
    | some j => decodeProducts j) = some l
  rw [if_pos rfl]
  show decodeProductList (l.map encodeProduct) = some l
  exact decodeProductList_encode l h2

/-- C4 witness: round trip of a concrete one-element list through an empty
store. -/
theorem save_load_roundtrip_witness :
    loadFromStorage (persist emptyStore [sampleProduct]) = some [sampleProduct] :=
  save_load_roundtrip emptyStore [sampleProduct] (by decide) (by decide)

/-- C5 (amended): hydrate replaces the list and sets the counter to the
`Math.max`-fold of the identifiers seeded at 0, plus one — which is 1 for
the empty list and (max identifier) + 1 whenever the maximal identifier is
nonnegative — and the hydrated list is the persisted one exactly when
loading succeeds with a non-empty list, the 11-item seed catalog
otherwise. -/
theorem hydrate_semantics (payload : List Product) (st : BlobStore) (l : List Product) :
    (hydrateOp payload).products = payload ∧
    (hydrateOp payload).nextId = payload.foldl (fun m p => jsMax m p.id) 0 + 1 ∧
    (payload = [] → (hydrateOp payload).nextId = 1) ∧
    (∀ p ∈ payload, p.id < (hydrateOp payload).nextId) ∧
    (∀ p ∈ payload, 0 ≤ p.id → (∀ q ∈ payload, q.id ≤ p.id) →
      (hydrateOp payload).nextId = p.id + 1) ∧
    (loadFromStorage st = some l → l ≠ [] → chooseHydration st = l) ∧
    (loadFromStorage st = none → chooseHydration st = initialProducts) ∧
    (loadFromStorage st = some [] → chooseHydration st = initialProducts) ∧
    initialProducts.length = 11 := by
  refine ⟨rfl, rfl, ?_, ?_, ?_, ?_, ?_, ?_, rfl⟩
  · rintro rfl
    show (0 : ℚ) + 1 = 1
    norm_num
  · exact fun p hp => lt_of_le_of_lt (mem_le_foldl_jsMax hp 0) (lt_add_one _)
  · intro p hp h0 hmax
    have hfold : payload.foldl (fun m q => jsMax m q.id) 0 = p.id :=
      le_antisymm (foldl_jsMax_le h0 hmax) (mem_le_foldl_jsMax hp 0)
    show payload.foldl (fun m q => jsMax m q.id) 0 + 1 = p.id + 1
    rw [hfold]
  · intro hload hne
    cases l with
    | nil => exact absurd rfl hne
    | cons a l => simp [chooseHydration, hload]
  · intro hload
    simp [chooseHydration, hload]
  · intro hload
    simp [chooseHydration, hload]

/-- C5 witness: hydrating a concrete two-element payload gives counter 3,
and a store whose load fails hydrates the seed catalog. -/
theorem hydrate_semantics_witness :
    (hydrateOp [sampleProduct, sampleProduct2]).nextId = sampleProduct2.id + 1 ∧
    chooseHydration emptyStore = initialProducts := by
  have h := hydrate_semantics [sampleProduct, sampleProduct2] emptyStore []
  refine ⟨h.2.2.2.2.1 sampleProduct2 (by decide) (by decide) ?_, h.2.2.2.2.2.2.1 rfl⟩
  intro q hq
  fin_cases hq
  · show (1 : ℚ) ≤ 2
    norm_num
  · exact le_refl _

/-- C5 counterexample: a payload whose maximal identifier is negative gets
counter 1, not (max identifier) + 1 = 0 as the claim demands. -/
theorem hydrate_negative_max_id_counterexample :
    (hydrateOp [negIdProduct]).nextId = 1 ∧ negIdProduct.id + 1 = 0 := by
  constructor
  · show [negIdProduct].foldl (fun m p => jsMax m p.id) 0 + 1 = 1
    norm_num [List.foldl, jsMax, negIdProduct]
  · norm_num [negIdProduct]

/-- C7: a fixed page size of 6, page count the ceiling of count/6 but at
least 1; 13 items give 3 pages split 6/6/1; previous/next targets stay in
`[1, totalPages]` whenever the current page does. -/
theorem pagination_semantics (t page : Nat) (l : List Product) :
    1 ≤ totalPages t ∧ totalPages 0 = 1 ∧
    t ≤ totalPages t * PAGE_SIZE ∧
    (0 < t → PAGE_SIZE * (totalPages t - 1) < t) ∧
    totalPages 13 = 3 ∧
    (l.length = 13 →
      (pageItems 1 l).length = 6 ∧ (pageItems 2 l).length = 6 ∧ (pageItems 3 l).length = 1) ∧
    (1 ≤ page → page ≤ totalPages t →
      1 ≤ prevPageTarget page ∧ prevPageTarget page ≤ totalPages t ∧
      1 ≤ nextPageTarget (totalPages t) page ∧ nextPageTarget (totalPages t) page ≤ totalPages t) := by
  refine ⟨?_, by decide, ?_, ?_, by decide, ?_, ?_⟩
  · exact Nat.le_max_left 1 _
  · simp only [totalPages, PAGE_SIZE, Nat.max_def]
    split <;> omega
  · simp only [totalPages, PAGE_SIZE, Nat.max_def]
    split <;> omega
  · intro h
    refine ⟨?_, ?_, ?_⟩ <;>
      simp only [pageItems, PAGE_SIZE, List.length_take, List.length_drop, h] <;> omega
  · intro h1 h2
    have htp : 1 ≤ totalPages t := Nat.le_max_left 1 _
    exact ⟨Nat.le_max_left 1 _,
      Nat.max_le.mpr ⟨htp, le_trans (Nat.sub_le page 1) h2⟩,
      Nat.le_min.mpr ⟨htp, by omega⟩,
      Nat.min_le_left _ _⟩

/-- C7 witness: 13 concrete items paginate 6/6/1 over 3 pages and the
previous target from page 2 stays within range. -/
theorem pagination_semantics_witness :
    (pageItems 3 (List.replicate 13 sampleProduct)).length = 1 ∧
    prevPageTarget 2 ≤ totalPages 13 := by
  have h := pagination_semantics 13 2 (List.replicate 13 sampleProduct)
  exact ⟨(h.2.2.2.2.2.1 (by simp)).2.2, (h.2.2.2.2.2.2 (by decide) (by decide)).2.1⟩

/-- C8: an `update` whose payload's identifier matches nothing in the list
leaves the state unchanged — a silent no-op. -/
theorem update_unknown_id_noop (s : ProductState) (pl : Product)
    (h : ∀ p ∈ s.products, p.id ≠ pl.id) :
    (updateOp s pl).products = s.products ∧ updateOp s pl = s := by
  obtain ⟨ps, n⟩ := s
  have hm : ps.map (fun p => if p.id = pl.id then pl else p) = ps := by
    have h2 : ps.map (fun p => if p.id = pl.id then pl else p) = ps.map (fun p => p) :=
      List.map_congr_left (fun p hp => if_neg (h p hp))
    simpa using h2
  exact ⟨hm, by simp [updateOp, hm]⟩

/-- C8 witness: updating a concrete one-element store with an absent
identifier changes nothing. -/
theorem update_unknown_id_noop_witness :
    updateOp ⟨[sampleProduct], 2⟩ sampleProduct2 = ⟨[sampleProduct], 2⟩ :=
  (update_unknown_id_noop ⟨[sampleProduct], 2⟩ sampleProduct2 (by decide)).2

/-- C9: submitting with any failing rule marks every field touched and
emits nothing; a payload is emitted exactly when no rule fails; the name
"AB" in particular fails the minimum-length rule. -/
theorem form_submit_gate (v : FormValues) (t : Touched) (initial : Product) :
    ((validate v).isEmpty = false →
      submitAdd t v = (allTouched, none) ∧ submitEdit t initial v = (allTouched, none)) ∧
    ((submitAdd t v).2.isSome = true ↔ (validate v).isEmpty = true) ∧
    ((submitEdit t initial v).2.isSome = true ↔ (validate v).isEmpty = true) ∧
    ((validate v).isEmpty = true ↔
      ((validate v).ten = none ∧ (validate v).danhMuc = none ∧ (validate v).gia = none ∧
        (validate v).soLuong = none ∧ (validate v).moTa = none)) ∧
    (v.ten = "AB" → (validate v).ten = some "Tên tối thiểu 3 ký tự" ∧ (submitAdd t v).2 = none) := by
  refine ⟨?_, ?_, ?_, ?_, ?_⟩
  · intro h
    constructor <;> simp [submitAdd, submitEdit, h]
  · by_cases h : (validate v).isEmpty = true <;> simp [submitAdd, h]
  · by_cases h : (validate v).isEmpty = true <;> simp [submitEdit, h]
  · unfold FormErrors.isEmpty
    simp [Option.isNone_iff_eq_none]
    tauto
  · intro hAB
    have hten : (validate v).ten =
        (if jsTrim v.ten = "" then some "Tên sản phẩm là bắt buộc"
         else if (jsTrim v.ten).length < 3 then some "Tên tối thiểu 3 ký tự" else none) := rfl
    rw [hAB] at hten
    have hten' : (validate v).ten = some "Tên tối thiểu 3 ký tự" := by
      rw [hten]
      decide
    have hempty : (validate v).isEmpty = false := by
      unfold FormErrors.isEmpty
      rw [hten']
      rfl
    refine ⟨hten', ?_⟩
    simp [submitAdd, hempty]

/-- C9 witness: the concrete draft with name "AB" emits nothing while the
valid concrete draft's emission matches the empty-error condition. -/
theorem form_submit_gate_witness :
    (validate sampleFormAB).ten = some "Tên tối thiểu 3 ký tự" ∧
    (submitAdd noneTouched sampleFormAB).2 = none ∧
    ((submitAdd noneTouched sampleFormOk).2.isSome = true ↔
      (validate sampleFormOk).isEmpty = true) := by
  have h1 := form_submit_gate sampleFormAB noneTouched sampleProduct
  have h2 := form_submit_gate sampleFormOk noneTouched sampleProduct
  exact ⟨(h1.2.2.2.2 rfl).1, (h1.2.2.2.2 rfl).2, h2.2.1⟩

/-- C10: neither `update` nor `delete` moves the counter; `update` keeps
the length and leaves every position whose identifier differs from the
payload's untouched; `delete` keeps the remaining elements in their
relative order (the filtered list is a sublist). -/
theorem update_remove_frame (s : ProductState) (pl : Product) (i : ℚ) :
    (updateOp s pl).nextId = s.nextId ∧ (removeOp s i).nextId = s.nextId ∧
    (updateOp s pl).products.length = s.products.length ∧
    (∀ (j : Nat) (p : Product), s.products[j]? = some p → p.id ≠ pl.id →
      (updateOp s pl).products[j]? = some p) ∧
    (removeOp s i).products.Sublist s.products ∧
    (removeOp s i).products = s.products.filter (fun p => decide (p.id ≠ i)) := by
  refine ⟨rfl, rfl, List.length_map .., ?_, List.filter_sublist _, rfl⟩
  intro j p hj hne
  show (s.products.map (fun p => if p.id = pl.id then pl else p))[j]? = some p
  rw [List.getElem?_map, hj]
  simp [if_neg hne]

/-- C10 witness: on a concrete two-element store, updating identifier 2
leaves position 0 (identifier 1) in place, and a delete keeps the
counter. -/
theorem update_remove_frame_witness :
    (updateOp ⟨[sampleProduct, sampleProduct2], 3⟩ ⟨2, "c", "Khác", .fin 9, .fin 1, "f"⟩).products[0]? =
      some sampleProduct ∧
    (removeOp ⟨[sampleProduct, sampleProduct2], 3⟩ 2).nextId = 3 := by
  have h := update_remove_frame ⟨[sampleProduct, sampleProduct2], 3⟩
    ⟨2, "c", "Khác", .fin 9, .fin 1, "f"⟩ 2
  exact ⟨h.2.2.2.1 0 sampleProduct (by decide) (by decide), h.2.1⟩

end ProductApp
